import Mathlib

/- Verification of the EMS bus message codec (src/collector/EmsMessage.cpp).
   The codec decodes windowed binary bus frames into typed readings and
   encodes outgoing command frames.  Pieces that live only in the missing
   header EmsMessage.h (device addresses, the window check `canAccess`,
   record sizes) are modelled from the specification and marked as such. -/

namespace EmsCollector

/-- Reading categories: the EmsValue::Type enumeration, restricted to the
variants actually constructed in EmsMessage.cpp. -/
inductive EmsType where
  | SollTemp | IstTemp | SetTemp | MaxLeistung | MomLeistung | Flammenstrom
  | Systemdruck | ServiceCode | FehlerCode | FlammeAktiv | BrennerAktiv
  | ZuendungAktiv | PumpeAktiv | DreiWegeVentilAufWW | ZirkulationAktiv
  | PumpenModulation | Brennerstarts | BetriebsZeit | HeizZeit
  | WarmwasserbereitungsZeit | WarmwasserBereitungen | Tagbetrieb
  | EinmalLadungAktiv | DesinfektionAktiv | WarmwasserBereitung
  | NachladungAktiv | WarmwasserTempOK | WWSystemType | Schaltpunkte
  | Fehler | EinschaltHysterese | AusschaltHysterese | MinModulation
  | MaxModulation | AntipendelZeit | PumpenNachlaufZeit | SystemZeit
  | GedaempfteTemp | HKKennlinie | TemperaturAenderung | Automatikbetrieb
  | Ausschaltoptimierung | Einschaltoptimierung | WWVorrang
  | Estrichtrocknung | Ferien | Frostschutz | Sommerbetrieb | Party
  | SchaltuhrEin | EinschaltoptimierungsZeit | AusschaltoptimierungsZeit
  | Mischersteuerung
  deriving DecidableEq

/-- The EmsValue::SubType enumeration (device/circuit a reading belongs to). -/
inductive EmsSubType where
  | None | Kessel | WW | Ruecklauf | Zirkulation | Aussen | Abgas | Raum
  | HK1 | HK2
  deriving DecidableEq

/-- The payload of one decoded reading: the boost::variant m_value together
with m_readingType, modelled as a sum type.  Floating point numeric readings
are modelled as exact rationals; the opaque ErrorRecord and SystemTimeRecord
blocks are modelled as their raw byte lists. -/
inductive Reading where
  | numeric (v : Rat)
  | boolean (b : Bool)
  | kennlinie (low medium high : Nat)
  | enumeration (v : Nat)
  | errorEntry (sourceType : Nat) (index : Nat) (record : List Nat)
  | systemTime (record : List Nat)
  | formatted (s : String)
  deriving DecidableEq

/-- One decoded reading (class EmsValue). -/
structure EmsValue where
  type : EmsType
  subType : EmsSubType
  reading : Reading
  deriving DecidableEq

/-- The signed (two's-complement) reading of a 32-bit register pattern:
how a C++ `int` holding that bit pattern compares and converts. -/
def toSigned32 (n : Nat) : Int :=
  if n % 2 ^ 32 < 2 ^ 31 then ((n % 2 ^ 32 : Nat) : Int)
  else ((n % 2 ^ 32 : Nat) : Int) - 2 ^ 32

/-- The accumulation loop of the numeric EmsValue constructor
(EmsMessage.cpp lines 38-41): `value = (value << 8) | data[i]` over all
bytes, starting from 0.  `value` is a 32-bit C++ `int`, so the loop is
modelled on the 32-bit bit pattern, wrapping modulo 2^32.  For fields of
up to 3 bytes the pattern stays below 2^24 and no wrap occurs; a 4-byte
field fills the register exactly. -/
def emsNumericRaw (data : List Nat) : Nat :=
  data.foldl (fun v b => ((v <<< 8) ||| b) % 2 ^ 32) 0

/-- The signed value computed by the numeric EmsValue constructor
(EmsMessage.cpp lines 43-48): when the first byte has its highest bit set,
`value = value - (1 << (len * 8))` before the division.  The arithmetic is
that of a 32-bit `int`: the subtraction wraps modulo 2^32 on the bit
pattern, and the shift count of `1 << (len * 8)` is taken modulo 32 the
way the usual 32-bit shifter does — for `len = 4` the C++ shift by 32 is
undefined behaviour, which the common targets evaluate as a shift by 0,
yielding 1.  For the 1-3 byte widths every step is defined behaviour and
this model is exact. -/
def emsNumericValue (data : List Nat) : Int :=
  if data.headD 0 &&& 0x80 ≠ 0 then
    toSigned32 ((emsNumericRaw data + 2 ^ 32 - (1 <<< (data.length * 8 % 32))) % 2 ^ 32)
  else
    toSigned32 (emsNumericRaw data)

/-- The numeric EmsValue constructor (EmsMessage.cpp lines 33-51):
`m_value = (float) value / (float) divider`, with the float division
modelled as exact rational division. -/
def EmsValue.mkNumeric (t : EmsType) (st : EmsSubType) (data : List Nat)
    (divider : Int) : EmsValue :=
  ⟨t, st, .numeric ((emsNumericValue data : Rat) / (divider : Rat))⟩

/-- The boolean EmsValue constructor (EmsMessage.cpp lines 53-59):
`m_value = (value & (1 << bit)) != 0`. -/
def EmsValue.mkBool (t : EmsType) (st : EmsSubType) (value : Nat)
    (bit : Nat) : EmsValue :=
  ⟨t, st, .boolean (value &&& (1 <<< bit) != 0)⟩

namespace EmsProto

/-- Modelled from the spec: the UBA boiler address from the missing header
EmsMessage.h.  The value 0x08 is fixed by the spec scenario frame
`[0x08,0x00,0x18,0x00,...]` ("source=UBA monitor-fast device"). -/
def addressUBA : Nat := 0x08

/-- Modelled from the spec: the BC10 address from the missing header; the
source comment at EmsMessage.cpp line 219 shows a BC10 frame starting with
byte 0x9. -/
def addressBC10 : Nat := 0x09

/-- Modelled from the spec: "this gateway's own address" (EmsProto::addressPC)
from the missing header. -/
def addressPC : Nat := 0x0b

/-- Modelled from the spec: the room-controller (RC) address from the
missing header. -/
def addressRC : Nat := 0x10

/-- Modelled from the spec: the WM10 pump-module address from the missing
header. -/
def addressWM10 : Nat := 0x11

/-- Modelled from the spec: the MM10 mixer-module address from the missing
header. -/
def addressMM10 : Nat := 0x21

/-- Modelled from the spec: `sizeof(EmsProto::ErrorRecord)`, the fixed size
of the opaque error record declared in the missing header. -/
def errorRecordSize : Nat := 12

/-- Modelled from the spec: `sizeof(EmsProto::SystemTimeRecord)`, the fixed
size of the opaque date/time record declared in the missing header. -/
def systemTimeRecordSize : Nat := 8

end EmsProto

/-- One bus frame after header split (class EmsMessage): source, dest,
message type, logical offset of the payload window, and the payload. -/
structure EmsMessage where
  source : Nat
  dest : Nat
  type : Nat
  offset : Nat
  data : List Nat
  deriving DecidableEq

/-- The inbound-frame constructor (EmsMessage.cpp lines 101-117): with at
least 4 bytes the header is split off and the payload is the rest;
otherwise the header fields stay zero and m_data keeps the raw bytes. -/
def EmsMessage.ofBytes (raw : List Nat) : EmsMessage :=
  match raw with
  | source :: dest :: type :: offset :: rest =>
    { source := source, dest := dest, type := type, offset := offset, data := rest }
  | _ => { source := 0, dest := 0, type := 0, offset := 0, data := raw }

/-- The outbound-command constructor (EmsMessage.cpp lines 119-129): the
source is the gateway's own address and bit 7 of dest is ORed in iff a
response is expected. -/
def EmsMessage.mkSend (dest type offset : Nat) (data : List Nat)
    (expectResponse : Bool) : EmsMessage :=
  { source := EmsProto.addressPC,
    dest := dest ||| (if expectResponse then 0x80 else 0),
    type := type, offset := offset, data := data }

/-- EmsMessage::getSendData (EmsMessage.cpp lines 131-143): dest, type,
offset and payload; the own address is omitted on send. -/
def EmsMessage.getSendData (m : EmsMessage) : List Nat :=
  m.dest :: m.type :: m.offset :: m.data

/-- Modelled from the spec: `EmsMessage::canAccess` is declared in the
missing header EmsMessage.h.  The spec fixes its meaning: "a field at
logical offset o with width w is only extracted if offset ≤ o and
o + w ≤ offset + len(payload)". -/
def EmsMessage.canAccess (m : EmsMessage) (offset size : Nat) : Bool :=
  decide (m.offset ≤ offset) && decide (offset + size ≤ m.offset + m.data.length)

/-- One payload byte access `m_data[i]` / `m_data.at(i)`.  An index past the
end of the payload is undefined behaviour in the C++ (out-of-bounds read),
modelled as `none`; decode routines propagate `none`. -/
def EmsMessage.readByte (m : EmsMessage) (i : Nat) : Option Nat :=
  m.data[i]?

/-- Reading `n` consecutive payload bytes starting at raw index `i` (a
pointer into m_data plus a length). -/
def EmsMessage.readBytes (m : EmsMessage) (i : Nat) : Nat → Option (List Nat)
  | 0 => some []
  | n + 1 => do
    let b ← m.readByte i
    let rest ← m.readBytes (i + 1) n
    pure (b :: rest)

/-- EmsMessage::parseNumeric (EmsMessage.cpp lines 267-275): if the field
window is accessible, build a numeric value from the bytes at
`offset - m_offset` and emit it; otherwise emit nothing. -/
def EmsMessage.parseNumeric (m : EmsMessage) (offset size : Nat)
    (divider : Int) (t : EmsType) (st : EmsSubType) : Option (List EmsValue) :=
  if m.canAccess offset size then do
    let bytes ← m.readBytes (offset - m.offset) size
    pure [EmsValue.mkNumeric t st bytes divider]
  else
    pure []

/-- EmsMessage::parseBool (EmsMessage.cpp lines 277-285). -/
def EmsMessage.parseBool (m : EmsMessage) (offset bit : Nat)
    (t : EmsType) (st : EmsSubType) : Option (List EmsValue) :=
  if m.canAccess offset 1 then do
    let b ← m.readByte (offset - m.offset)
    pure [EmsValue.mkBool t st b bit]
  else
    pure []

/-- Sequencing of the statements of a parse routine: each statement emits a
(possibly empty) list of values to the handler; the emissions are
concatenated in statement order, and an out-of-bounds read (`none`) in any
statement makes the whole routine undefined. -/
def seqFields : List (Option (List EmsValue)) → Option (List EmsValue)
  | [] => some []
  | x :: rest => do
    let v ← x
    let vs ← seqFields rest
    pure (v ++ vs)

/-- EmsMessage::parseUBAMonitorFastMessage (EmsMessage.cpp lines 287-316).
Note: the service-code block reads `m_data[18]` and `m_data[19]` and the
fault-code block reads `m_data[20]` and `m_data[21]` -- raw indices without
the `- m_offset` adjustment used everywhere else. -/
def EmsMessage.parseUBAMonitorFastMessage (m : EmsMessage) : Option (List EmsValue) :=
  seqFields
    [ m.parseNumeric 0 1 1 .SollTemp .Kessel,
      m.parseNumeric 1 2 10 .IstTemp .Kessel,
      m.parseNumeric 11 2 10 .IstTemp .WW,
      m.parseNumeric 13 2 10 .IstTemp .Ruecklauf,
      m.parseNumeric 3 1 1 .MaxLeistung .None,
      m.parseNumeric 4 1 1 .MomLeistung .None,
      m.parseNumeric 15 2 10 .Flammenstrom .None,
      m.parseNumeric 17 1 10 .Systemdruck .None,
      (if m.canAccess 18 2 then do
        let b18 ← m.readByte 18
        let b19 ← m.readByte 19
        pure [(⟨.ServiceCode, .None,
          .formatted (String.mk [Char.ofNat b18, Char.ofNat b19])⟩ : EmsValue)]
      else pure []),
      (if m.canAccess 20 2 then do
        let b20 ← m.readByte 20
        let b21 ← m.readByte 21
        pure [(⟨.FehlerCode, .None,
          .formatted (toString ((b20 <<< 8) ||| b21))⟩ : EmsValue)]
      else pure []),
      m.parseBool 7 0 .FlammeAktiv .None,
      m.parseBool 7 2 .BrennerAktiv .None,
      m.parseBool 7 3 .ZuendungAktiv .None,
      m.parseBool 7 5 .PumpeAktiv .Kessel,
      m.parseBool 7 6 .DreiWegeVentilAufWW .None,
      m.parseBool 7 7 .ZirkulationAktiv .None ]

/-- EmsMessage::parseUBAMonitorSlowMessage (EmsMessage.cpp lines 318-328). -/
def EmsMessage.parseUBAMonitorSlowMessage (m : EmsMessage) : Option (List EmsValue) :=
  seqFields
    [ m.parseNumeric 0 2 10 .IstTemp .Aussen,
      m.parseNumeric 2 2 10 .IstTemp .Kessel,
      m.parseNumeric 4 2 10 .IstTemp .Abgas,
      m.parseNumeric 9 1 1 .PumpenModulation .None,
      m.parseNumeric 10 3 1 .Brennerstarts .None,
      m.parseNumeric 13 3 1 .BetriebsZeit .None,
      m.parseNumeric 19 3 1 .HeizZeit .None ]

/-- EmsMessage::parseUBAMonitorWWMessage (EmsMessage.cpp lines 330-351). -/
def EmsMessage.parseUBAMonitorWWMessage (m : EmsMessage) : Option (List EmsValue) :=
  seqFields
    [ m.parseNumeric 0 1 1 .SollTemp .WW,
      m.parseNumeric 1 2 10 .IstTemp .WW,
      m.parseNumeric 10 3 1 .WarmwasserbereitungsZeit .None,
      m.parseNumeric 13 3 1 .WarmwasserBereitungen .None,
      m.parseBool 5 0 .Tagbetrieb .WW,
      m.parseBool 5 1 .EinmalLadungAktiv .WW,
      m.parseBool 5 2 .DesinfektionAktiv .WW,
      m.parseBool 5 3 .WarmwasserBereitung .None,
      m.parseBool 5 4 .NachladungAktiv .WW,
      m.parseBool 5 5 .WarmwasserTempOK .None,
      m.parseBool 7 0 .Tagbetrieb .Zirkulation,
      m.parseBool 7 2 .ZirkulationAktiv .None,
      (if m.canAccess 8 1 then do
        let b ← m.readByte (8 - m.offset)
        pure [(⟨.WWSystemType, .None, .enumeration b⟩ : EmsValue)]
      else pure []) ]

/-- EmsMessage::parseUBAParameterWWMessage (EmsMessage.cpp lines 353-360). -/
def EmsMessage.parseUBAParameterWWMessage (m : EmsMessage) : Option (List EmsValue) :=
  if m.canAccess 7 1 then do
    let b ← m.readByte (7 - m.offset)
    pure [(⟨.Schaltpunkte, .Zirkulation, .enumeration b⟩ : EmsValue)]
  else pure []

/-- The record-iteration loop of EmsMessage::parseUBAErrorMessage
(EmsMessage.cpp lines 373-380): while the window still covers a full
record at `start`, emit an entry whose index is `start / record_size` and
advance by one record. -/
def EmsMessage.errorLoop (m : EmsMessage) (start : Nat) : Option (List EmsValue) :=
  if h : m.canAccess start EmsProto.errorRecordSize then
    match m.readBytes (start - m.offset) EmsProto.errorRecordSize with
    | none => none
    | some record =>
      match m.errorLoop (start + EmsProto.errorRecordSize) with
      | none => none
      | some rest =>
        some ((⟨.Fehler, .None,
          .errorEntry m.type (start / EmsProto.errorRecordSize) record⟩ : EmsValue) :: rest)
  else
    some []
termination_by m.offset + m.data.length - start
decreasing_by
  simp [EmsMessage.canAccess, EmsProto.errorRecordSize] at h ⊢
  omega

/-- EmsMessage::parseUBAErrorMessage (EmsMessage.cpp lines 362-381): round
the window offset up to the next record boundary, then iterate full
records. -/
def EmsMessage.parseUBAErrorMessage (m : EmsMessage) : Option (List EmsValue) :=
  let start :=
    if m.offset % EmsProto.errorRecordSize ≠ 0 then
      (m.offset / EmsProto.errorRecordSize + 1) * EmsProto.errorRecordSize
    else
      m.offset
  m.errorLoop start

/-- EmsMessage::parseUBAParametersMessage (EmsMessage.cpp lines 383-393). -/
def EmsMessage.parseUBAParametersMessage (m : EmsMessage) : Option (List EmsValue) :=
  seqFields
    [ m.parseNumeric 1 1 1 .SetTemp .Kessel,
      m.parseNumeric 4 1 1 .EinschaltHysterese .Kessel,
      m.parseNumeric 5 1 1 .AusschaltHysterese .Kessel,
      m.parseNumeric 10 1 1 .MinModulation .Kessel,
      m.parseNumeric 9 1 1 .MaxModulation .Kessel,
      m.parseNumeric 6 1 1 .AntipendelZeit .None,
      m.parseNumeric 8 1 1 .PumpenNachlaufZeit .Kessel ]

/-- EmsMessage::parseRCTimeMessage (EmsMessage.cpp lines 395-403): emit the
raw SystemTimeRecord block if fully inside the window (the canAccess guard
forces m_offset = 0, so raw index 0 is logical offset 0). -/
def EmsMessage.parseRCTimeMessage (m : EmsMessage) : Option (List EmsValue) :=
  if m.canAccess 0 EmsProto.systemTimeRecordSize then do
    let record ← m.readBytes 0 EmsProto.systemTimeRecordSize
    pure [(⟨.SystemZeit, .None, .systemTime record⟩ : EmsValue)]
  else pure []

/-- EmsMessage::parseRCOutdoorTempMessage (EmsMessage.cpp lines 405-409). -/
def EmsMessage.parseRCOutdoorTempMessage (m : EmsMessage) : Option (List EmsValue) :=
  m.parseNumeric 0 1 1 .GedaempfteTemp .Aussen

/-- EmsMessage::parseRCHKMonitorMessage (EmsMessage.cpp lines 411-442). -/
def EmsMessage.parseRCHKMonitorMessage (m : EmsMessage) (subtype : EmsSubType) :
    Option (List EmsValue) :=
  seqFields
    [ m.parseNumeric 2 1 2 .SollTemp .Raum,
      m.parseNumeric 3 2 10 .IstTemp .Raum,
      (if m.canAccess 7 3 then do
        let b7 ← m.readByte (7 - m.offset)
        let b8 ← m.readByte (8 - m.offset)
        let b9 ← m.readByte (9 - m.offset)
        pure [(⟨.HKKennlinie, subtype, .kennlinie b7 b8 b9⟩ : EmsValue)]
      else pure []),
      m.parseNumeric 14 1 1 .SollTemp subtype,
      m.parseNumeric 5 1 1 .EinschaltoptimierungsZeit subtype,
      m.parseNumeric 6 1 1 .AusschaltoptimierungsZeit subtype,
      (if m.canAccess 15 1 then do
        let b15 ← m.readByte (15 - m.offset)
        if b15 &&& 1 == 0 then
          m.parseNumeric 10 2 100 .TemperaturAenderung .Raum
        else pure []
      else pure []),
      m.parseBool 0 2 .Automatikbetrieb subtype,
      m.parseBool 0 0 .Ausschaltoptimierung subtype,
      m.parseBool 0 1 .Einschaltoptimierung subtype,
      m.parseBool 0 3 .WWVorrang subtype,
      m.parseBool 0 4 .Estrichtrocknung subtype,
      m.parseBool 0 5 .Ferien subtype,
      m.parseBool 0 6 .Frostschutz subtype,
      m.parseBool 1 0 .Sommerbetrieb subtype,
      m.parseBool 1 1 .Tagbetrieb subtype,
      m.parseBool 1 7 .Party subtype,
      m.parseBool 13 4 .SchaltuhrEin subtype ]

/-- EmsMessage::parseWMTemp1Message (EmsMessage.cpp lines 444-451). -/
def EmsMessage.parseWMTemp1Message (m : EmsMessage) : Option (List EmsValue) :=
  seqFields
    [ m.parseNumeric 0 2 10 .IstTemp .HK1,
      m.parseBool 2 2 .PumpeAktiv .HK1 ]

/-- EmsMessage::parseWMTemp2Message (EmsMessage.cpp lines 453-457). -/
def EmsMessage.parseWMTemp2Message (m : EmsMessage) : Option (List EmsValue) :=
  m.parseNumeric 0 2 10 .IstTemp .HK1

/-- EmsMessage::parseMMTempMessage (EmsMessage.cpp lines 459-468). -/
def EmsMessage.parseMMTempMessage (m : EmsMessage) : Option (List EmsValue) :=
  seqFields
    [ m.parseNumeric 0 1 1 .SollTemp .HK2,
      m.parseNumeric 1 2 10 .IstTemp .HK2,
      m.parseNumeric 3 1 1 .Mischersteuerung .None,
      m.parseBool 3 2 .PumpeAktiv .HK2 ]

/-- The dispatch switch of EmsMessage::handle (EmsMessage.cpp lines
189-255), rendered as the equality chain a switch performs.  The RC case
block of the outer switch ends without a break (line 241) and therefore
falls through into the WM10 case block; the fall-through is reproduced
here: an RC-sourced frame runs the RC type switch and then also the WM10
type switch. -/
def EmsMessage.dispatch (m : EmsMessage) : Option (List EmsValue) :=
  if m.source = EmsProto.addressUBA then
    if m.type = 0x07 then some []
    else if m.type = 0x10 ∨ m.type = 0x11 then m.parseUBAErrorMessage
    else if m.type = 0x16 then m.parseUBAParametersMessage
    else if m.type = 0x18 then m.parseUBAMonitorFastMessage
    else if m.type = 0x19 then m.parseUBAMonitorSlowMessage
    else if m.type = 0x1c then some []
    else if m.type = 0x33 then m.parseUBAParameterWWMessage
    else if m.type = 0x34 then m.parseUBAMonitorWWMessage
    else some []
  else if m.source = EmsProto.addressBC10 then
    some []
  else if m.source = EmsProto.addressRC ∨ m.source = EmsProto.addressWM10 then do
    let rcVals ←
      if m.source = EmsProto.addressRC then
        if m.type = 0x06 then m.parseRCTimeMessage
        else if m.type = 0x3E then m.parseRCHKMonitorMessage .HK1
        else if m.type = 0x48 then m.parseRCHKMonitorMessage .HK2
        else if m.type = 0xA3 then m.parseRCOutdoorTempMessage
        else some []
      else some []
    let wmVals ←
      if m.type = 0x9C then m.parseWMTemp1Message
      else if m.type = 0x1E then m.parseWMTemp2Message
      else some []
    pure (rcVals ++ wmVals)
  else if m.source = EmsProto.addressMM10 then
    if m.type = 0xAB then m.parseMMTempMessage
    else some []
  else some []

/-- EmsMessage::handle (EmsMessage.cpp lines 145-265).  The boolean models
whether a value handler is registered; the debug logging is not modelled
(it emits no values).  The three early returns are, in source order: no
value handler, all-zero header, poll bit set.  The result is the list of
values emitted to the handler, or `none` if an out-of-bounds payload read
occurred. -/
def EmsMessage.handle (m : EmsMessage) (hasValueHandler : Bool) : Option (List EmsValue) :=
  if hasValueHandler = false then some []
  else if m.source = 0 ∧ m.dest = 0 ∧ m.type = 0 then some []
  else if m.dest &&& 0x80 ≠ 0 then some []
  else m.dispatch

/-- The set of (source, type) pairs for which the dispatch switch invokes a
per-device parse routine (fall-through included): read off from the case
labels of EmsMessage.cpp lines 189-255. -/
def EmsMessage.dispatchSelects (m : EmsMessage) : Prop :=
  (m.source = EmsProto.addressUBA ∧
    (m.type = 0x10 ∨ m.type = 0x11 ∨ m.type = 0x16 ∨ m.type = 0x18 ∨
     m.type = 0x19 ∨ m.type = 0x33 ∨ m.type = 0x34)) ∨
  (m.source = EmsProto.addressRC ∧
    (m.type = 0x06 ∨ m.type = 0x3E ∨ m.type = 0x48 ∨ m.type = 0xA3)) ∨
  ((m.source = EmsProto.addressRC ∨ m.source = EmsProto.addressWM10) ∧
    (m.type = 0x9C ∨ m.type = 0x1E)) ∨
  (m.source = EmsProto.addressMM10 ∧ m.type = 0xAB)

instance (m : EmsMessage) : Decidable m.dispatchSelects := by
  unfold EmsMessage.dispatchSelects
  infer_instance

/-- Spec-side definition: the big-endian unsigned integer denoted by a byte
list. -/
def beNat : List Nat → Nat
  | [] => 0
  | b :: rest => b * 256 ^ rest.length + beNat rest

/-- The error-log entry decoded at absolute record offset `s`: index is
`s / record_size`, the record is the corresponding payload slice. -/
def errorEntryAt (m : EmsMessage) (s : Nat) : EmsValue :=
  ⟨.Fehler, .None, .errorEntry m.type (s / EmsProto.errorRecordSize)
    ((m.data.drop (s - m.offset)).take EmsProto.errorRecordSize)⟩

/-- Spec-side definition of the error-log decoding, following the spec's
words: "the decoder computes the first fully-aligned record boundary ≥
offset, then iterates fixed-size records while the window still covers a
full record, decoding each into an ErrorLogEntry whose index is
absolute_offset / record_size". -/
def errorLogEntriesSpec (m : EmsMessage) : List EmsValue :=
  let rs := EmsProto.errorRecordSize
  let first := rs * ((m.offset + rs - 1) / rs)
  (List.range ((m.offset + m.data.length - first) / rs)).map fun i =>
    (⟨.Fehler, .None, .errorEntry m.type ((first + i * rs) / rs)
      ((m.data.drop (first + i * rs - m.offset)).take rs)⟩ : EmsValue)

/- ------------------------------------------------------------------ -/
/- Helper lemmas                                                      -/
/- ------------------------------------------------------------------ -/

/-- Shifting left by one byte and ORing in a value below 256 is base-256
accumulation. -/
theorem shiftLeft8_or_eq {a b : Nat} (hb : b < 256) :
    (a <<< 8) ||| b = a * 256 + b := by
  have hb8 : b < 2 ^ 8 := lt_of_lt_of_eq hb (by norm_num)
  apply Nat.eq_of_testBit_eq
  intro i
  have h1 : a * 256 + b = 2 ^ 8 * a + b := by ring
  rcases Nat.lt_or_ge i 8 with hi | hi
  · rw [Nat.testBit_or, Nat.testBit_shiftLeft, h1,
      Nat.testBit_mul_pow_two_add a hb8 i, if_pos hi]
    simp [Nat.not_le.mpr hi]
  · rw [Nat.testBit_or, Nat.testBit_shiftLeft, h1,
      Nat.testBit_mul_pow_two_add a hb8 i, if_neg (by omega)]
    have hbi : b.testBit i = false := by
      apply Nat.testBit_lt_two_pow
      calc b < 2 ^ 8 := hb8
        _ ≤ 2 ^ i := Nat.pow_le_pow_right (by norm_num) hi
    simp [hi, hbi]

/-- For a byte, testing the 0x80 mask is testing whether the byte is at
least 128. -/
theorem and128_ne_zero_iff {b : Nat} (hb : b < 256) :
    b &&& 128 ≠ 0 ↔ 128 ≤ b := by
  have h : b &&& 128 = (b.testBit 7).toNat * 2 ^ 7 := by
    have h2 := Nat.and_two_pow b 7
    norm_num at h2 ⊢
    exact h2
  rw [h, Nat.testBit_to_div_mod]
  by_cases hc : b / 2 ^ 7 % 2 = 1
  · simp [hc]
    norm_num at hc
    omega
  · simp [hc]
    norm_num at hc
    omega

/-- Reading a fully in-bounds byte range yields exactly the corresponding
slice of the payload. -/
theorem readBytes_eq (m : EmsMessage) :
    ∀ (n i : Nat), i + n ≤ m.data.length →
      m.readBytes i n = some ((m.data.drop i).take n) := by
  intro n
  induction n with
  | zero => intro i _; rfl
  | succ k ih =>
    intro i h
    have hi : i < m.data.length := by omega
    have hb : m.readByte i = some m.data[i] := by
      simp [EmsMessage.readByte, List.getElem?_eq_getElem hi]
    have hstep : m.readBytes i (k + 1) = (m.readByte i).bind (fun b =>
        (m.readBytes (i + 1) k).bind (fun rest => some (b :: rest))) := rfl
    rw [hstep, hb, ih (i + 1) (by omega), List.drop_eq_getElem_cons hi,
      List.take_succ_cons]
    rfl

set_option maxHeartbeats 1000000 in
/-- If the dispatch switch selects no parse routine for the frame's
(source, type) pair, the dispatch emits nothing. -/
theorem dispatch_eq_nil_of_not_selects (m : EmsMessage)
    (hsel : ¬ m.dispatchSelects) : m.dispatch = some [] := by
  unfold EmsMessage.dispatchSelects at hsel
  push_neg at hsel
  obtain ⟨hA, hB, hC, hD⟩ := hsel
  unfold EmsMessage.dispatch
  by_cases hU : m.source = EmsProto.addressUBA
  · have h := hA hU
    rw [if_pos hU]
    split_ifs <;> first | rfl | omega
  · rw [if_neg hU]
    by_cases hBc : m.source = EmsProto.addressBC10
    · rw [if_pos hBc]
    · rw [if_neg hBc]
      by_cases hRW : m.source = EmsProto.addressRC ∨ m.source = EmsProto.addressWM10
      · have hw := hC hRW
        rw [if_pos hRW]
        by_cases hR : m.source = EmsProto.addressRC
        · have hr := hB hR
          split_ifs <;> first | rfl | omega
        · split_ifs <;> first | rfl | omega
      · rw [if_neg hRW]
        by_cases hM : m.source = EmsProto.addressMM10
        · have hm2 := hD hM
          rw [if_pos hM]
          split_ifs <;> first | rfl | omega
        · rw [if_neg hM]

/-- A pattern below 2^31 reads as itself. -/
theorem toSigned32_small {n : Nat} (h : n < 2 ^ 31) : toSigned32 n = (n : Int) := by
  unfold toSigned32
  rw [Nat.mod_eq_of_lt (by omega)]
  exact if_pos h

/-- A pattern in the upper half reads as itself minus 2^32. -/
theorem toSigned32_large {n : Nat} (h1 : 2 ^ 31 ≤ n) (h2 : n < 2 ^ 32) :
    toSigned32 n = (n : Int) - 2 ^ 32 := by
  unfold toSigned32
  rw [Nat.mod_eq_of_lt h2]
  exact if_neg (by omega)

/-- One-byte accumulation. -/
theorem emsNumericRaw_one {b : Nat} (hb : b < 256) : emsNumericRaw [b] = b := by
  have h : emsNumericRaw [b] = (0 <<< 8 ||| b) % 2 ^ 32 := rfl
  rw [h, Nat.zero_shiftLeft, Nat.zero_or, Nat.mod_eq_of_lt (by omega)]

/-- Two-byte accumulation is big-endian base 256 (no wrap below 2^16). -/
theorem emsNumericRaw_two {b0 b1 : Nat} (hb0 : b0 < 256) (hb1 : b1 < 256) :
    emsNumericRaw [b0, b1] = b0 * 256 + b1 := by
  have h : emsNumericRaw [b0, b1] =
      (((0 <<< 8 ||| b0) % 2 ^ 32) <<< 8 ||| b1) % 2 ^ 32 := rfl
  rw [h, Nat.zero_shiftLeft, Nat.zero_or, Nat.mod_eq_of_lt (by omega : b0 < 2 ^ 32),
    shiftLeft8_or_eq hb1, Nat.mod_eq_of_lt (by omega)]

/-- A one-byte value whose high bit is clear decodes unsigned. -/
theorem emsNumericValue_one {b : Nat} (hb : b < 128) :
    emsNumericValue [b] = (b : Int) := by
  unfold emsNumericValue
  rw [if_neg]
  · rw [emsNumericRaw_one (by omega)]
    exact toSigned32_small (by omega)
  · intro hne
    rw [List.headD_cons] at hne
    exact absurd ((and128_ne_zero_iff (by omega)).mp hne) (by omega)

/-- A two-byte value whose high bit is clear decodes unsigned big-endian. -/
theorem emsNumericValue_two {b0 b1 : Nat} (hb0 : b0 < 128) (hb1 : b1 < 256) :
    emsNumericValue [b0, b1] = ((b0 * 256 + b1 : Nat) : Int) := by
  unfold emsNumericValue
  rw [if_neg]
  · rw [emsNumericRaw_two (by omega) hb1]
    exact toSigned32_small (by omega)
  · intro hne
    rw [List.headD_cons] at hne
    exact absurd ((and128_ne_zero_iff (by omega)).mp hne) (by omega)

/-- The record-iteration loop emits exactly one entry per full record the
window still covers, one for each multiple of the record size from `start`
on, each decoded at its absolute offset. -/
theorem errorLoop_eq (n : Nat) : ∀ (m : EmsMessage) (start : Nat), m.offset ≤ start →
    (m.offset + m.data.length - start) / EmsProto.errorRecordSize = n →
    m.errorLoop start = some ((List.range n).map fun i =>
      errorEntryAt m (start + i * EmsProto.errorRecordSize)) := by
  induction n with
  | zero =>
    intro m start hs hn
    simp only [EmsProto.errorRecordSize] at hn
    have hc : ¬ (m.canAccess start EmsProto.errorRecordSize = true) := by
      simp only [EmsMessage.canAccess, EmsProto.errorRecordSize, Bool.and_eq_true,
        decide_eq_true_eq]
      rintro ⟨h1, h2⟩
      omega
    rw [EmsMessage.errorLoop, dif_neg hc]
    simp
  | succ k ih =>
    intro m start hs hn
    simp only [EmsProto.errorRecordSize] at hn
    have hcc : m.canAccess start EmsProto.errorRecordSize = true := by
      simp only [EmsMessage.canAccess, EmsProto.errorRecordSize, Bool.and_eq_true,
        decide_eq_true_eq]
      omega
    rw [EmsMessage.errorLoop, dif_pos hcc]
    rw [readBytes_eq m EmsProto.errorRecordSize (start - m.offset)
      (by simp only [EmsProto.errorRecordSize]; omega)]
    rw [ih m (start + EmsProto.errorRecordSize)
      (by simp only [EmsProto.errorRecordSize]; omega)
      (by simp only [EmsProto.errorRecordSize]; omega)]
    dsimp only
    rw [List.range_succ_eq_map, List.map_cons, List.map_map]
    congr 1
    congr 1
    refine List.map_congr_left fun i _ => ?_
    simp only [Function.comp]
    congr 1
    simp only [Nat.succ_eq_add_one]
    ring

/-- Three-byte accumulation is big-endian base 256 (no wrap below 2^24). -/
theorem emsNumericRaw_three {b0 b1 b2 : Nat} (hb0 : b0 < 256) (hb1 : b1 < 256)
    (hb2 : b2 < 256) :
    emsNumericRaw [b0, b1, b2] = (b0 * 256 + b1) * 256 + b2 := by
  have h : emsNumericRaw [b0, b1, b2] =
      (((((0 <<< 8 ||| b0) % 2 ^ 32) <<< 8 ||| b1) % 2 ^ 32) <<< 8 ||| b2) % 2 ^ 32 := rfl
  rw [h, Nat.zero_shiftLeft, Nat.zero_or, Nat.mod_eq_of_lt (by omega : b0 < 2 ^ 32),
    shiftLeft8_or_eq hb1, Nat.mod_eq_of_lt (by omega : b0 * 256 + b1 < 2 ^ 32),
    shiftLeft8_or_eq hb2, Nat.mod_eq_of_lt (by omega)]

/-- For the 1-3 byte widths the decoder uses, the value computed by the
numeric constructor is the canonical two's-complement interpretation: it is
congruent to the big-endian unsigned value modulo 2^(8w) and lies in the
signed range of width 8w. -/
theorem emsNumericValue_key (data : List Nat) (hlen1 : 1 ≤ data.length)
    (hlen3 : data.length ≤ 3) (hbytes : ∀ b ∈ data, b < 256) :
    emsNumericValue data % ((2 : Int) ^ (8 * data.length)) = (beNat data : Int) ∧
    -((2 : Int) ^ (8 * data.length - 1)) ≤ emsNumericValue data ∧
    emsNumericValue data < (2 : Int) ^ (8 * data.length - 1) := by
  rcases data with _ | ⟨b0, _ | ⟨b1, _ | ⟨b2, _ | ⟨b3, rest⟩⟩⟩⟩
  · simp at hlen1
  · have hb0 : b0 < 256 := hbytes b0 (by simp)
    by_cases hmsb : 128 ≤ b0
    · have hv : emsNumericValue [b0] = ((b0 + 2 ^ 32 - 256 : Nat) : Int) - 2 ^ 32 := by
        unfold emsNumericValue
        simp only [List.headD_cons]
        rw [if_pos ((and128_ne_zero_iff hb0).mpr hmsb), emsNumericRaw_one hb0]
        have hshift : (1 : Nat) <<< ([b0].length * 8 % 32) = 256 := rfl
        rw [hshift, Nat.mod_eq_of_lt (by omega)]
        exact toSigned32_large (by omega) (by omega)
      rw [hv]
      simp only [beNat, List.length_cons, List.length_nil]
      push_cast
      omega
    · have hv : emsNumericValue [b0] = (b0 : Int) := by
        unfold emsNumericValue
        rw [if_neg]
        · rw [emsNumericRaw_one hb0]
          exact toSigned32_small (by omega)
        · intro hne
          rw [List.headD_cons] at hne
          exact absurd ((and128_ne_zero_iff hb0).mp hne) hmsb
      rw [hv]
      simp only [beNat, List.length_cons, List.length_nil]
      push_cast
      omega
  · have hb0 : b0 < 256 := hbytes b0 (by simp)
    have hb1 : b1 < 256 := hbytes b1 (by simp)
    by_cases hmsb : 128 ≤ b0
    · have hv : emsNumericValue [b0, b1] =
          ((b0 * 256 + b1 + 2 ^ 32 - 65536 : Nat) : Int) - 2 ^ 32 := by
        unfold emsNumericValue
        simp only [List.headD_cons]
        rw [if_pos ((and128_ne_zero_iff hb0).mpr hmsb), emsNumericRaw_two hb0 hb1]
        have hshift : (1 : Nat) <<< ([b0, b1].length * 8 % 32) = 65536 := rfl
        rw [hshift, Nat.mod_eq_of_lt (by omega)]
        exact toSigned32_large (by omega) (by omega)
      rw [hv]
      simp only [beNat, List.length_cons, List.length_nil]
      push_cast
      omega
    · have hv : emsNumericValue [b0, b1] = ((b0 * 256 + b1 : Nat) : Int) := by
        unfold emsNumericValue
        rw [if_neg]
        · rw [emsNumericRaw_two hb0 hb1]
          exact toSigned32_small (by omega)
        · intro hne
          rw [List.headD_cons] at hne
          exact absurd ((and128_ne_zero_iff hb0).mp hne) hmsb
      rw [hv]
      simp only [beNat, List.length_cons, List.length_nil]
      push_cast
      omega
  · have hb0 : b0 < 256 := hbytes b0 (by simp)
    have hb1 : b1 < 256 := hbytes b1 (by simp)
    have hb2 : b2 < 256 := hbytes b2 (by simp)
    by_cases hmsb : 128 ≤ b0
    · have hv : emsNumericValue [b0, b1, b2] =
          (((b0 * 256 + b1) * 256 + b2 + 2 ^ 32 - 16777216 : Nat) : Int) - 2 ^ 32 := by
        unfold emsNumericValue
        simp only [List.headD_cons]
        rw [if_pos ((and128_ne_zero_iff hb0).mpr hmsb), emsNumericRaw_three hb0 hb1 hb2]
        have hshift : (1 : Nat) <<< ([b0, b1, b2].length * 8 % 32) = 16777216 := rfl
        rw [hshift, Nat.mod_eq_of_lt (by omega)]
        exact toSigned32_large (by omega) (by omega)
      rw [hv]
      simp only [beNat, List.length_cons, List.length_nil]
      push_cast
      omega
    · have hv : emsNumericValue [b0, b1, b2] = (((b0 * 256 + b1) * 256 + b2 : Nat) : Int) := by
        unfold emsNumericValue
        rw [if_neg]
        · rw [emsNumericRaw_three hb0 hb1 hb2]
          exact toSigned32_small (by omega)
        · intro hne
          rw [List.headD_cons] at hne
          exact absurd ((and128_ne_zero_iff hb0).mp hne) hmsb
      rw [hv]
      simp only [beNat, List.length_cons, List.length_nil]
      push_cast
      omega
  · simp at hlen3

/- ------------------------------------------------------------------ -/
/- Claim theorems                                                     -/
/- ------------------------------------------------------------------ -/

/-- C1: evaluation of the decoder at a failing input.  The claim says
decoding never reads a byte outside the payload's bounds.  The UBA
fast-monitor frame with offset 1 and a 19-byte payload passes the
`canAccess 18 2` window check, but the service-code block then reads raw
payload indices 18 and 19 (the `- m_offset` adjustment is missing at
EmsMessage.cpp lines 301 and 306), and index 19 is one past the end of the
19-byte payload: the decode is undefined (`none`), an out-of-bounds read. -/
theorem C1_oob_read_eval :
    (EmsMessage.ofBytes ([0x08, 0x00, 0x18, 0x01] ++ List.replicate 19 0)).handle true =
      none := by
  rfl

/-- C3: evaluation of the dispatch at a failing input.  The claim says a
frame whose source is the room controller (RC, 0x10) never invokes a
pump-module (WM10) parse routine.  Because the RC case block of the switch
in EmsMessage::handle has no break before the WM10 case block
(EmsMessage.cpp line 241), an RC frame of type 0x1E falls through and runs
parseWMTemp2Message, emitting the WM10 table's heating-circuit
temperature. -/
theorem C3_rc_fallthrough_eval :
    (EmsMessage.ofBytes [0x10, 0x00, 0x1E, 0x00, 0x01, 0x2C]).handle true =
      some [⟨.IstTemp, .HK1, .numeric 30⟩] := by
  have h1 : (EmsMessage.ofBytes [0x10, 0x00, 0x1E, 0x00, 0x01, 0x2C]).handle true =
      some [EmsValue.mkNumeric .IstTemp .HK1 [0x01, 0x2C] 10] := rfl
  rw [h1, EmsValue.mkNumeric, emsNumericValue_two (by norm_num) (by norm_num)]
  norm_num

/-- C9: the spec scenario.  Decoding the frame
`[0x08,0x00,0x18,0x00,0x5A,0x01,0xF4]` (UBA source, dest 0, type 0x18,
offset 0, payload `5A 01 F4`) emits exactly the target boiler temperature
90 and the actual boiler temperature 50, in this order, and nothing
else. -/
theorem C9_fast_monitor_scenario :
    (EmsMessage.ofBytes [0x08, 0x00, 0x18, 0x00, 0x5A, 0x01, 0xF4]).handle true =
      some [⟨.SollTemp, .Kessel, .numeric 90⟩, ⟨.IstTemp, .Kessel, .numeric 50⟩] := by
  have h1 : (EmsMessage.ofBytes [0x08, 0x00, 0x18, 0x00, 0x5A, 0x01, 0xF4]).handle true =
      some [EmsValue.mkNumeric .SollTemp .Kessel [0x5A] 1,
            EmsValue.mkNumeric .IstTemp .Kessel [0x01, 0xF4] 10] := rfl
  rw [h1, EmsValue.mkNumeric, EmsValue.mkNumeric,
    emsNumericValue_one (by norm_num), emsNumericValue_two (by norm_num) (by norm_num)]
  norm_num

/-- C10: if no value handler is registered, handling emits nothing, for
every frame — including frames whose decoding would otherwise be undefined;
the guard is the first test in EmsMessage::handle (lines 174-177), before
the discard checks and the dispatch. -/
theorem C10_no_handler_no_values (m : EmsMessage) : m.handle false = some [] :=
  rfl

/-- C4 counterexample: take dest = 0x80 (bit 7 already set) and
expectResponse = false.  Encoding, prefixing the source byte 0x0b and
decoding yields a destination whose bit 7 is set although the
response-expected flag was false, so the claimed equality "the decoded
destination's bit 7 equals the response-expected flag" is false at this
input. -/
theorem C4_cex_bit7 :
    (EmsMessage.ofBytes
      (0x0b :: (EmsMessage.mkSend 0x80 0x35 0x00 [0x22] false).getSendData)).dest
      &&& 0x80 ≠ 0 := by
  decide

/-- C4 (amended): for every destination whose bit 7 is clear, message type,
offset, payload and response-expected flag, encoding the command and then
decoding the frame obtained by prefixing one source byte reproduces the
original (dest & 0x7f, type, offset, payload), and the decoded
destination's bit 7 equals the response-expected flag. -/
theorem C4_roundtrip_amended (dest type offset : Nat) (payload : List Nat)
    (src : Nat) (exp : Bool) (hdest : dest &&& 0x80 = 0) :
    ((EmsMessage.ofBytes
        (src :: (EmsMessage.mkSend dest type offset payload exp).getSendData)).dest
        &&& 0x7f = dest &&& 0x7f) ∧
    (EmsMessage.ofBytes
      (src :: (EmsMessage.mkSend dest type offset payload exp).getSendData)).type = type ∧
    (EmsMessage.ofBytes
      (src :: (EmsMessage.mkSend dest type offset payload exp).getSendData)).offset = offset ∧
    (EmsMessage.ofBytes
      (src :: (EmsMessage.mkSend dest type offset payload exp).getSendData)).data = payload ∧
    ((EmsMessage.ofBytes
        (src :: (EmsMessage.mkSend dest type offset payload exp).getSendData)).dest
        &&& 0x80 = if exp then 0x80 else 0) := by
  have hd : (EmsMessage.ofBytes
      (src :: (EmsMessage.mkSend dest type offset payload exp).getSendData)) =
      { source := src, dest := dest ||| (if exp then 0x80 else 0),
        type := type, offset := offset, data := payload } := rfl
  rw [hd]
  refine ⟨?_, rfl, rfl, rfl, ?_⟩
  · cases exp with
    | false => rw [if_neg (by simp), Nat.or_zero]
    | true =>
      rw [if_pos rfl, Nat.and_distrib_right,
        (by decide : (128 : Nat) &&& 0x7f = 0), Nat.or_zero]
  · cases exp with
    | false =>
      show (dest ||| 0) &&& 0x80 = 0
      rw [Nat.or_zero]; exact hdest
    | true =>
      show (dest ||| 128) &&& 0x80 = 128
      rw [Nat.and_distrib_right, hdest,
        (by decide : (128 : Nat) &&& 0x80 = 128), Nat.zero_or]

/-- C4 witness: the amended round trip at dest 0x10, type 0x35, offset 0,
payload [0x22], source byte 0x0b, response expected. -/
theorem C4_roundtrip_witness :
    ((0x10 : Nat) &&& 0x80 = 0) ∧
    (((EmsMessage.ofBytes
        (0x0b :: (EmsMessage.mkSend 0x10 0x35 0x00 [0x22] true).getSendData)).dest
        &&& 0x7f = 0x10 &&& 0x7f) ∧
     (EmsMessage.ofBytes
       (0x0b :: (EmsMessage.mkSend 0x10 0x35 0x00 [0x22] true).getSendData)).type = 0x35 ∧
     (EmsMessage.ofBytes
       (0x0b :: (EmsMessage.mkSend 0x10 0x35 0x00 [0x22] true).getSendData)).offset = 0x00 ∧
     (EmsMessage.ofBytes
       (0x0b :: (EmsMessage.mkSend 0x10 0x35 0x00 [0x22] true).getSendData)).data = [0x22] ∧
     ((EmsMessage.ofBytes
         (0x0b :: (EmsMessage.mkSend 0x10 0x35 0x00 [0x22] true).getSendData)).dest
         &&& 0x80 = if true then 0x80 else 0)) :=
  ⟨by decide, C4_roundtrip_amended 0x10 0x35 0x00 [0x22] 0x0b true (by decide)⟩

/-- C8 counterexample: with dest = 0xFF (bit 7 already set) and
expectResponse = false, the leading byte of the encoded frame has bit 7
set although the flag was false, so the claimed "bit 7 set iff
expectResponse" is false at this input. -/
theorem C8_cex_bit7 :
    ((EmsMessage.mkSend 0xFF 0x33 0x00 [] false).getSendData.headD 0)
      &&& 0x80 ≠ 0 := by
  decide

/-- C8 (amended): for every destination whose bit 7 is clear, the encoded
byte sequence is exactly [dest with bit 7 additionally set iff
expectResponse][type][offset][payload]; the gateway's own source address
byte does not appear, and bit 7 of the leading byte equals the flag. -/
theorem C8_encode_layout_amended (dest type offset : Nat) (payload : List Nat)
    (exp : Bool) (hdest : dest &&& 0x80 = 0) :
    (EmsMessage.mkSend dest type offset payload exp).getSendData =
      (dest ||| (if exp then 0x80 else 0)) :: type :: offset :: payload ∧
    ((EmsMessage.mkSend dest type offset payload exp).getSendData.headD 0)
      &&& 0x80 = (if exp then 0x80 else 0) := by
  refine ⟨rfl, ?_⟩
  have hh : (EmsMessage.mkSend dest type offset payload exp).getSendData.headD 0 =
      dest ||| (if exp then 0x80 else 0) := rfl
  rw [hh]
  cases exp with
  | false =>
    show (dest ||| 0) &&& 0x80 = 0
    rw [Nat.or_zero]; exact hdest
  | true =>
    show (dest ||| 128) &&& 0x80 = 128
    rw [Nat.and_distrib_right, hdest,
      (by decide : (128 : Nat) &&& 0x80 = 128), Nat.zero_or]

/-- C8 witness: the amended layout at dest 0x23, type 0x33, offset 2,
payload [7, 9], no response expected. -/
theorem C8_encode_layout_witness :
    ((0x23 : Nat) &&& 0x80 = 0) ∧
    ((EmsMessage.mkSend 0x23 0x33 0x02 [7, 9] false).getSendData =
      (0x23 ||| (if false then 0x80 else 0)) :: 0x33 :: 0x02 :: [7, 9] ∧
     ((EmsMessage.mkSend 0x23 0x33 0x02 [7, 9] false).getSendData.headD 0)
       &&& 0x80 = (if false then 0x80 else 0)) :=
  ⟨by decide, C8_encode_layout_amended 0x23 0x33 0x02 [7, 9] false (by decide)⟩

/-- C6: a raw byte sequence of fewer than 4 bytes decodes with an all-zero
header, and every frame whose source, dest and msg type are all zero, or
whose dest has bit 7 set, is discarded by EmsMessage::handle without
emitting any value and without any out-of-bounds access, whether or not a
value handler is registered. -/
theorem C6_invalid_frames_discarded (raw : List Nat) (h : Bool) :
    (raw.length < 4 →
      (EmsMessage.ofBytes raw).source = 0 ∧ (EmsMessage.ofBytes raw).dest = 0 ∧
      (EmsMessage.ofBytes raw).type = 0 ∧ (EmsMessage.ofBytes raw).offset = 0) ∧
    (∀ m : EmsMessage,
      (m.source = 0 ∧ m.dest = 0 ∧ m.type = 0) ∨ m.dest &&& 0x80 ≠ 0 →
      m.handle h = some []) := by
  constructor
  · intro hlen
    match raw with
    | [] => exact ⟨rfl, rfl, rfl, rfl⟩
    | [_] => exact ⟨rfl, rfl, rfl, rfl⟩
    | [_, _] => exact ⟨rfl, rfl, rfl, rfl⟩
    | [_, _, _] => exact ⟨rfl, rfl, rfl, rfl⟩
    | _ :: _ :: _ :: _ :: _ => simp at hlen; omega
  · intro m hm
    unfold EmsMessage.handle
    by_cases hh : h = false
    · rw [if_pos hh]
    · rw [if_neg hh]
      rcases hm with h0 | hp
      · rw [if_pos h0]
      · by_cases h0 : m.source = 0 ∧ m.dest = 0 ∧ m.type = 0
        · rw [if_pos h0]
        · rw [if_neg h0, if_pos hp]

/-- C6 witness: the malformed-frame half at the 2-byte raw sequence [1, 2],
and the discard half at the poll frame with dest 0x88. -/
theorem C6_witness :
    ((EmsMessage.ofBytes [1, 2]).source = 0 ∧ (EmsMessage.ofBytes [1, 2]).dest = 0 ∧
     (EmsMessage.ofBytes [1, 2]).type = 0 ∧ (EmsMessage.ofBytes [1, 2]).offset = 0) ∧
    (EmsMessage.mk 0x08 0x88 0x18 0 [0x5A]).handle true = some [] :=
  ⟨(C6_invalid_frames_discarded [1, 2] true).1 (by decide),
   (C6_invalid_frames_discarded [1, 2] true).2 ⟨0x08, 0x88, 0x18, 0, [0x5A]⟩
     (Or.inr (by decide))⟩

/-- C7: for every frame whose (source, msg type) pair selects no per-device
parse routine in the dispatch switch, handling emits no value and is a
total no-op (no error, no undefined behaviour), whether or not the discard
checks pass. -/
theorem C7_unknown_pair_noop (m : EmsMessage) (h : Bool)
    (hsel : ¬ m.dispatchSelects) : m.handle h = some [] := by
  unfold EmsMessage.handle
  by_cases hh : h = false
  · rw [if_pos hh]
  · rw [if_neg hh]
    by_cases h0 : m.source = 0 ∧ m.dest = 0 ∧ m.type = 0
    · rw [if_pos h0]
    · rw [if_neg h0]
      by_cases hp : m.dest &&& 0x80 ≠ 0
      · rw [if_pos hp]
      · rw [if_neg hp]
        exact dispatch_eq_nil_of_not_selects m hsel

/-- C7 witness: the UBA frame of (unhandled) type 0x20 with a value handler
registered emits nothing. -/
theorem C7_witness :
    (¬ (EmsMessage.ofBytes [0x08, 0x00, 0x20, 0x00, 0x01]).dispatchSelects) ∧
    (EmsMessage.ofBytes [0x08, 0x00, 0x20, 0x00, 0x01]).handle true = some [] :=
  ⟨by decide,
   C7_unknown_pair_noop (EmsMessage.ofBytes [0x08, 0x00, 0x20, 0x00, 0x01]) true
     (by decide)⟩

/-- C2 counterexample: the claim includes width 4, but there the program
does not compute the width-32 two's-complement value.  For the bytes
FF FF FF FE with scale 1 the claim's v is -2; in the constructor the
accumulated 32-bit pattern is 0xFFFFFFFE (already -2 as an int) and the
sign adjustment then subtracts `1 << 32`, a shift by the full register
width — undefined behaviour that the usual targets evaluate as `1 << 0`,
i.e. 1 — so the decoded reading is -3, not -2. -/
theorem C2_cex_width4 :
    EmsValue.mkNumeric .IstTemp .Kessel [0xFF, 0xFF, 0xFF, 0xFE] 1 ≠
      ⟨.IstTemp, .Kessel, .numeric (-2 : Rat)⟩ := by
  have hv : emsNumericValue [0xFF, 0xFF, 0xFF, 0xFE] = -3 := by decide
  simp [EmsValue.mkNumeric, hv]

/-- C2 (amended): for every numeric field of width 1 ≤ w ≤ 3 (the widths
the decoder's field tables use; bytes below 256) and positive scale, the
numeric constructor decodes the bytes to the value v that is congruent to
the big-endian unsigned interpretation modulo 2^(8w) and lies in the
two's-complement signed range [-2^(8w-1), 2^(8w-1)) — i.e. the
most-significant-bit test implements two's complement at bit width 8w —
and the reading is v / s, with the float division modelled as exact
rational division; a divisor of 1 has no effect.  (At width 4 the C++
computation overflows its 32-bit int and shifts by the register width,
see the counterexample.) -/
theorem C2_numeric_decode (t : EmsType) (st : EmsSubType) (data : List Nat)
    (divider : Int) (hlen1 : 1 ≤ data.length) (hlen3 : data.length ≤ 3)
    (hbytes : ∀ b ∈ data, b < 256) (hdiv : 0 < divider) :
    ∃ v : Int,
      EmsValue.mkNumeric t st data divider =
        ⟨t, st, .numeric ((v : Rat) / (divider : Rat))⟩ ∧
      v % ((2 : Int) ^ (8 * data.length)) = (beNat data : Int) ∧
      -((2 : Int) ^ (8 * data.length - 1)) ≤ v ∧
      v < (2 : Int) ^ (8 * data.length - 1) ∧
      (divider = 1 →
        EmsValue.mkNumeric t st data divider = ⟨t, st, .numeric (v : Rat)⟩) := by
  obtain ⟨h1, h2, h3⟩ := emsNumericValue_key data hlen1 hlen3 hbytes
  refine ⟨emsNumericValue data, rfl, h1, h2, h3, ?_⟩
  intro hone
  subst hone
  simp [EmsValue.mkNumeric]

/-- C2 witness: the two-byte field 0xFF 0xFE with scale 10 decodes to
v = -2 (congruent to 0xFFFE modulo 2^16, in signed range) and the reading
-2/10. -/
theorem C2_numeric_decode_witness :
    (1 ≤ ([0xFF, 0xFE] : List Nat).length ∧ ([0xFF, 0xFE] : List Nat).length ≤ 3 ∧
      (∀ b ∈ ([0xFF, 0xFE] : List Nat), b < 256) ∧ (0 : Int) < 10) ∧
    ∃ v : Int,
      EmsValue.mkNumeric .IstTemp .Kessel [0xFF, 0xFE] 10 =
        ⟨.IstTemp, .Kessel, .numeric ((v : Rat) / ((10 : Int) : Rat))⟩ ∧
      v % ((2 : Int) ^ 16) = (beNat [0xFF, 0xFE] : Int) ∧
      -((2 : Int) ^ 15) ≤ v ∧
      v < (2 : Int) ^ 15 ∧
      ((10 : Int) = 1 →
        EmsValue.mkNumeric .IstTemp .Kessel [0xFF, 0xFE] 10 =
          ⟨.IstTemp, .Kessel, .numeric (v : Rat)⟩) :=
  ⟨⟨by decide, by decide, by decide, by norm_num⟩,
   C2_numeric_decode .IstTemp .Kessel [0xFF, 0xFE] 10 (by decide) (by decide)
     (by decide) (by norm_num)⟩

/-- C5: for every error-log frame, the decoder function equals the
spec-side windowing description: decoding starts at the first record
boundary that is a multiple of the record size and ≥ the frame's offset,
emits zero entries when the window covers no full aligned record (the
range is then empty), otherwise exactly one ErrorLogEntry per fully
covered aligned record, and each entry's index is its absolute offset
divided by the record size; no read is out of bounds (the result is
always `some`). -/
theorem C5_errorlog_refines_spec (m : EmsMessage) :
    m.parseUBAErrorMessage = some (errorLogEntriesSpec m) := by
  have hstep : m.parseUBAErrorMessage = m.errorLoop
      (if m.offset % EmsProto.errorRecordSize ≠ 0 then
        (m.offset / EmsProto.errorRecordSize + 1) * EmsProto.errorRecordSize
      else m.offset) := rfl
  have hfirst : (if m.offset % EmsProto.errorRecordSize ≠ 0 then
      (m.offset / EmsProto.errorRecordSize + 1) * EmsProto.errorRecordSize
    else m.offset) =
      EmsProto.errorRecordSize *
        ((m.offset + EmsProto.errorRecordSize - 1) / EmsProto.errorRecordSize) := by
    simp only [EmsProto.errorRecordSize]
    by_cases hz : m.offset % 12 = 0
    · rw [if_neg (by simpa using hz)]
      omega
    · rw [if_pos hz]
      omega
  rw [hstep, hfirst]
  rw [errorLoop_eq ((m.offset + m.data.length -
      EmsProto.errorRecordSize *
        ((m.offset + EmsProto.errorRecordSize - 1) / EmsProto.errorRecordSize)) /
      EmsProto.errorRecordSize) m
    (EmsProto.errorRecordSize *
      ((m.offset + EmsProto.errorRecordSize - 1) / EmsProto.errorRecordSize))
    (by simp only [EmsProto.errorRecordSize]; omega) rfl]
  rfl

end EmsCollector
